import Mathlib

/-!
Verification of `src/coffee_machine.py`.

Shallow embedding: the Python class hierarchy (abstract class `Coffee`
with abstract `prepare`, abstract subclass `MilkCoffee` adding abstract
`add_milk`, concrete classes `Espresso`, `Cappuccino`, `Latte`) is
embedded as the sum type `Coffee` of the three concrete variants, with
`prepare` defined by cases exactly as each class defines it.  The
subtype of milk-bearing beverages is the sum type `MilkCoffee` of the
two variants that subclass it; `Coffee.asMilkCoffee` is the embedding
of the runtime `isinstance(self.coffee, MilkCoffee)` downcast, and
`MilkCoffee.add_milk` carries the two `add_milk` bodies.  `CoffeeMachine`
holds one `Coffee` as assigned in `__init__`; each method is embedded as
a function from the machine to the list of lines it prints (the methods
return `None` in Python and only print, so the printed lines are the
whole observable behaviour; no exception is raised on any path, which
the embedding reflects by the functions being total).  `CoffeeMachine.run`
executes a sequence of method calls, threading the machine state, for
the frame and trace properties.  `mainOutput` is the full console
output of the `__main__` block.
-/

/-- Embedding of the three concrete beverage classes of the program:
`Espresso`, `Cappuccino`, `Latte`. -/
inductive Coffee where
  | espresso
  | cappuccino
  | latte
  deriving DecidableEq

/-- Embedding of the `prepare` methods: each concrete class returns its
fixed string literal. -/
def Coffee.prepare : Coffee → String
  | .espresso => "☕ Preparando un Espresso..."
  | .cappuccino => "☕ Preparando un Cappuccino..."
  | .latte => "☕ Preparando un Latte..."

/-- Embedding of the subtype `MilkCoffee`: the two concrete classes
that subclass it, `Cappuccino` and `Latte`. -/
inductive MilkCoffee where
  | cappuccino
  | latte
  deriving DecidableEq

/-- Upcast from the `MilkCoffee` subtype to `Coffee` (in Python this is
the subclass relation itself). -/
def MilkCoffee.toCoffee : MilkCoffee → Coffee
  | .cappuccino => .cappuccino
  | .latte => .latte

/-- Embedding of the `add_milk` methods of `Cappuccino` and `Latte`:
each returns its fixed string literal.  The method exists only on the
`MilkCoffee` subtype, so the function is defined only there. -/
def MilkCoffee.add_milk : MilkCoffee → String
  | .cappuccino => "🥛 Añadiendo leche al Cappuccino..."
  | .latte => "🥛 Añadiendo leche al Latte..."

/-- The `prepare` method seen through the `MilkCoffee` subtype: it is
inherited from the `Coffee` view of the same object. -/
def MilkCoffee.prepare (m : MilkCoffee) : String :=
  m.toCoffee.prepare

/-- Embedding of the runtime capability check
`isinstance(self.coffee, MilkCoffee)`: the downcast succeeds exactly on
the two milk-bearing variants. -/
def Coffee.asMilkCoffee : Coffee → Option MilkCoffee
  | .espresso => none
  | .cappuccino => some .cappuccino
  | .latte => some .latte

/-- Embedding of `CoffeeMachine`: `__init__` stores the injected
beverage in `self.coffee`. -/
structure CoffeeMachine where
  coffee : Coffee
  deriving DecidableEq

/-- Embedding of `CoffeeMachine.prepare`: it prints the one line
`self.coffee.prepare()`.  The result is the list of printed lines. -/
def CoffeeMachine.prepare (m : CoffeeMachine) : List String :=
  [m.coffee.prepare]

/-- Embedding of `CoffeeMachine.add_milk`: if the `isinstance` check
succeeds it prints the one line `self.coffee.add_milk()`, else it does
nothing.  The result is the list of printed lines. -/
def CoffeeMachine.add_milk (m : CoffeeMachine) : List String :=
  match m.coffee.asMilkCoffee with
  | some mc => [mc.add_milk]
  | none => []

/-- The two public methods of `CoffeeMachine`, as callable operations. -/
inductive Op where
  | prepare
  | addMilk
  deriving DecidableEq

/-- One method call on a machine: the Python methods mutate no field,
so the resulting machine is the receiver together with the lines the
call printed. -/
def CoffeeMachine.runOp (m : CoffeeMachine) : Op → CoffeeMachine × List String
  | .prepare => (m, m.prepare)
  | .addMilk => (m, m.add_milk)

/-- Execution of a sequence of method calls on a machine, threading the
machine state through the calls and concatenating the printed lines. -/
def CoffeeMachine.run (m : CoffeeMachine) : List Op → CoffeeMachine × List String
  | [] => (m, [])
  | op :: ops =>
    let step := m.runOp op
    let rest := step.1.run ops
    (rest.1, step.2 ++ rest.2)

/-- Embedding of the `__main__` block: the banner print followed by the
calls on the three machines, in source order.  The value is the full
console output, one entry per printed line. -/
def mainOutput : List String :=
  ["---- Máquina de Café ----"]
    ++ (CoffeeMachine.mk .espresso).prepare
    ++ (CoffeeMachine.mk .cappuccino).prepare
    ++ (CoffeeMachine.mk .cappuccino).add_milk
    ++ (CoffeeMachine.mk .latte).prepare
    ++ (CoffeeMachine.mk .latte).add_milk

/-- Boolean check that the first list of characters occurs at the start
of the second. -/
def hasPre : List Char → List Char → Bool
  | [], _ => true
  | _ :: _, [] => false
  | p :: ps, c :: cs => p == c && hasPre ps cs

/-- Boolean check that the first list of characters occurs contiguously
somewhere in the second. -/
def hasSub (pat : List Char) : List Char → Bool
  | [] => hasPre pat []
  | c :: cs => hasPre pat (c :: cs) || hasSub pat cs

/-- Boolean substring check on strings: `pat` occurs in `s`. -/
def strContainsSub (s pat : String) : Bool :=
  hasSub pat.data s.data

/-- The variant-name substrings the end-to-end scenario looks for. -/
def espressoPat : String :=
  "Espresso"

/-- The substring expected in every Cappuccino output line. -/
def cappuccinoPat : String :=
  "Cappuccino"

/-- The substring expected in every Latte output line. -/
def lattePat : String :=
  "Latte"

/-- C1: for every machine whose held beverage fails the milk-bearing
capability check (in particular one constructed with Espresso), the
method `add_milk` is a silent no-op: it prints nothing and returns
normally (the embedding is total, so no exception path exists). -/
theorem add_milk_noop_without_capability (m : CoffeeMachine)
    (h : m.coffee.asMilkCoffee = none) : m.add_milk = [] := by
  unfold CoffeeMachine.add_milk
  rw [h]

/-- Witness for C1 at the concrete input: a machine holding Espresso
fails the capability check and its `add_milk` prints zero lines. -/
theorem add_milk_noop_without_capability_witness :
    (CoffeeMachine.mk Coffee.espresso).coffee.asMilkCoffee = none ∧
    (CoffeeMachine.mk Coffee.espresso).add_milk = [] :=
  ⟨rfl, add_milk_noop_without_capability (CoffeeMachine.mk Coffee.espresso) rfl⟩

/-- C2: for every machine whose held beverage passes the milk-bearing
capability check, `add_milk` dispatches to that beverage and prints
exactly one line, the resulting description. -/
theorem add_milk_dispatch_with_capability (m : CoffeeMachine) (mc : MilkCoffee)
    (h : m.coffee.asMilkCoffee = some mc) :
    m.add_milk = [mc.add_milk] ∧ m.add_milk.length = 1 := by
  unfold CoffeeMachine.add_milk
  rw [h]
  exact ⟨rfl, rfl⟩

/-- Witness for C2 at the concrete input: a machine holding Cappuccino
prints exactly the Cappuccino milk description. -/
theorem add_milk_dispatch_with_capability_witness :
    (CoffeeMachine.mk Coffee.cappuccino).add_milk =
      [MilkCoffee.cappuccino.add_milk] ∧
    (CoffeeMachine.mk Coffee.cappuccino).add_milk.length = 1 :=
  add_milk_dispatch_with_capability (CoffeeMachine.mk Coffee.cappuccino)
    MilkCoffee.cappuccino rfl

/-- C3: `prepare` always succeeds on each of the three variants and
returns a fixed, non-empty, variant-specific string: the three strings
are pairwise distinct, and any sequence of repeated calls returns the
identical string every time. -/
theorem prepare_fixed_nonempty_distinct :
    (∀ c : Coffee, c.prepare ≠ "") ∧
    (Coffee.espresso.prepare ≠ Coffee.cappuccino.prepare ∧
      Coffee.espresso.prepare ≠ Coffee.latte.prepare ∧
      Coffee.cappuccino.prepare ≠ Coffee.latte.prepare) ∧
    (∀ c : Coffee, ∀ n : Nat,
      (List.replicate n c).map Coffee.prepare = List.replicate n c.prepare) := by
  refine ⟨?_, by decide, ?_⟩
  · intro c
    cases c <;> decide
  · intro c n
    simp [List.map_replicate]

/-- C4: on the two milk-bearing variants `add_milk` always succeeds and
returns a fixed, non-empty string, the two strings are distinct,
repeated calls return the identical string, and each of the two
variants implements both operations in full (both `prepare` and
`add_milk` return a non-empty description). -/
theorem add_milk_fixed_nonempty_distinct :
    (∀ mc : MilkCoffee, mc.add_milk ≠ "" ∧ mc.prepare ≠ "") ∧
    MilkCoffee.cappuccino.add_milk ≠ MilkCoffee.latte.add_milk ∧
    (∀ mc : MilkCoffee, ∀ n : Nat,
      (List.replicate n mc).map MilkCoffee.add_milk =
        List.replicate n mc.add_milk) := by
  refine ⟨?_, by decide, ?_⟩
  · intro mc
    cases mc <;> exact ⟨by decide, by decide⟩
  · intro mc n
    simp [List.map_replicate]

/-- C5: the `__main__` block deterministically prints exactly six
lines, in this fixed order: the banner, the Espresso prepare
description, the Cappuccino prepare description, the Cappuccino
add-milk description, the Latte prepare description, and the Latte
add-milk description. -/
theorem mainOutput_exact :
    mainOutput =
      ["---- Máquina de Café ----",
        Coffee.espresso.prepare,
        Coffee.cappuccino.prepare,
        MilkCoffee.cappuccino.add_milk,
        Coffee.latte.prepare,
        MilkCoffee.latte.add_milk] ∧
    mainOutput.length = 6 :=
  ⟨rfl, rfl⟩

/-- C6: substitutability: for every variant, a machine constructed with
it and on which only `prepare` is invoked behaves the same way: the
call succeeds and prints exactly one line, the held variant prepare
description. -/
theorem machine_prepare_substitutable (c : Coffee) :
    ((CoffeeMachine.mk c).run [Op.prepare]).2 = [c.prepare] ∧
    ((CoffeeMachine.mk c).run [Op.prepare]).2.length = 1 := by
  cases c <;> exact ⟨rfl, rfl⟩

/-- C7: literal containment: the Espresso machine prepare line contains
the substring Espresso; the Cappuccino machine, after `prepare` then
`add_milk`, prints two lines each containing Cappuccino, namely its
prepare description then its add-milk description; likewise for Latte
with the Latte substring. -/
theorem literal_containment :
    (((CoffeeMachine.mk .espresso).run [Op.prepare]).2.all
        (fun s => strContainsSub s espressoPat) = true ∧
      ((CoffeeMachine.mk .espresso).run [Op.prepare]).2.length = 1) ∧
    (((CoffeeMachine.mk .cappuccino).run [Op.prepare, Op.addMilk]).2.all
        (fun s => strContainsSub s cappuccinoPat) = true ∧
      ((CoffeeMachine.mk .cappuccino).run [Op.prepare, Op.addMilk]).2 =
        [Coffee.cappuccino.prepare, MilkCoffee.cappuccino.add_milk]) ∧
    (((CoffeeMachine.mk .latte).run [Op.prepare, Op.addMilk]).2.all
        (fun s => strContainsSub s lattePat) = true ∧
      ((CoffeeMachine.mk .latte).run [Op.prepare, Op.addMilk]).2 =
        [Coffee.latte.prepare, MilkCoffee.latte.add_milk]) := by
  decide

/-- C8: safety invariant: for every machine, either the held beverage
fails the capability check and `add_milk` dispatches nothing, or the
check succeeds on some milk-bearing beverage and the dispatch is to
that beverage only; the milk operation itself is defined only on the
milk-bearing subtype, so no other dispatch is expressible. -/
theorem milk_dispatch_guarded (m : CoffeeMachine) :
    (m.coffee.asMilkCoffee = none ∧ m.add_milk = []) ∨
    (∃ mc : MilkCoffee, m.coffee.asMilkCoffee = some mc ∧
      m.add_milk = [mc.add_milk]) := by
  obtain ⟨c⟩ := m
  cases c
  · exact Or.inl ⟨rfl, rfl⟩
  · exact Or.inr ⟨MilkCoffee.cappuccino, rfl, rfl⟩
  · exact Or.inr ⟨MilkCoffee.latte, rfl, rfl⟩

/-- C9: frame property: no sequence of `prepare` and `add_milk` calls
modifies the machine; after any sequence the machine, and hence the
held beverage, equals what construction produced. -/
theorem run_preserves_state (m : CoffeeMachine) (ops : List Op) :
    (m.run ops).1 = m ∧ (m.run ops).1.coffee = m.coffee := by
  refine ⟨?_, ?_⟩ <;> induction ops generalizing m with
  | nil => rfl
  | cons op ops ih =>
    cases op <;> simpa [CoffeeMachine.run, CoffeeMachine.runOp] using ih m

/-- C10: verbatim surfacing: the line printed by the machine `prepare`
is exactly the string the held beverage returns, and when the
capability check succeeds the line printed by the machine `add_milk` is
exactly the string the downcast beverage returns; the machine adds no
prefix, suffix or other transformation. -/
theorem machine_surfaces_verbatim (c : Coffee) :
    (CoffeeMachine.mk c).prepare = [c.prepare] ∧
    (∀ mc : MilkCoffee, c.asMilkCoffee = some mc →
      (CoffeeMachine.mk c).add_milk = [mc.add_milk]) := by
  refine ⟨rfl, ?_⟩
  intro mc h
  unfold CoffeeMachine.add_milk
  rw [show (CoffeeMachine.mk c).coffee = c from rfl, h]

/-- Witness for C10 at the concrete input: the Cappuccino machine
surfaces the Cappuccino prepare and add-milk strings verbatim. -/
theorem machine_surfaces_verbatim_witness :
    (CoffeeMachine.mk Coffee.cappuccino).prepare =
      [Coffee.cappuccino.prepare] ∧
    (CoffeeMachine.mk Coffee.cappuccino).add_milk =
      [MilkCoffee.cappuccino.add_milk] :=
  ⟨(machine_surfaces_verbatim Coffee.cappuccino).1,
    (machine_surfaces_verbatim Coffee.cappuccino).2 MilkCoffee.cappuccino rfl⟩
